import Mathlib

/-!
# Verification of the CodeCopilot core against its specification

Shallow embedding of the repository's core modules:

* `src/utils/secure_fs.py` — sandbox path resolution (`resolve_path`);
* `src/utils/context.py` — the context-window manager (`ContextManager`);
* `src/tool_registry.py` — tool discovery cache and dispatch
  (`scan_and_load_tools`, `get_all_tool_schemas`, `execute_tool_call`);
* `src/main.py` — the conversation orchestration loop (`chat`);
* `src/tools/read.py` — the read-and-format stage of `read_file`.

Paths are modelled as lists of segments (a `pathlib` path is its sequence of
components under the filesystem root); machine-level details (symlinks, the
operating system, the network, the actual LLM endpoint) are abstracted into
explicit parameters, as noted at each definition.
-/

namespace CodeCopilot

/-! ## src/utils/secure_fs.py -/

/-- A raw user-supplied path string, split into its `/`-separated segments.
`absolute` records a leading `/`: `pathlib`'s `PROJECT_ROOT / path` discards
the root when `path` is absolute. -/
structure RawPath where
  absolute : Bool
  segments : List String
deriving DecidableEq

/-- Split a character list on `/` (the segment separator). -/
def splitOnSlash (cs : List Char) (cur : List Char) : List String :=
  match cs with
  | [] => [String.mk cur.reverse]
  | c :: rest =>
      if c = '/' then String.mk cur.reverse :: splitOnSlash rest []
      else splitOnSlash rest (c :: cur)

/-- Parse a raw path string into a `RawPath`.  Empty segments (redundant
separators, trailing slash, the empty path) contribute nothing, exactly as in
`pathlib`. -/
def parsePath (s : String) : RawPath :=
  { absolute := match s.toList with
      | [] => false
      | c :: _ => c = '/',
    segments := (splitOnSlash s.toList []).filter (fun seg => seg ≠ "") }

/-- One step of lexical canonicalization: `.` is dropped, `..` removes the
last component (at the filesystem root it stays there, as `Path.resolve`
does), anything else is appended. -/
def normStep (acc : List String) (seg : String) : List String :=
  if seg = "." then acc
  else if seg = ".." then acc.dropLast
  else acc ++ [seg]

/-- `(PROJECT_ROOT / path).resolve()` of `resolve_path` step 1: join the raw
path to the sandbox root and canonicalize.  `root` is the segment list of
`PROJECT_ROOT`.  Symlink resolution is a filesystem effect outside the
embedding; the lexical `.`/`..` elimination is modelled exactly. -/
def canonicalize (root : List String) (p : RawPath) : List String :=
  p.segments.foldl normStep (if p.absolute then [] else root)

/-- `BLOCKED_FILES` of `secure_fs.py`. -/
def BLOCKED_FILES : List String :=
  [".env", ".env.local", "secrets.json", "id_rsa", ".DS_Store"]

/-- `BLOCKED_DIRS` of `secure_fs.py`. -/
def BLOCKED_DIRS : List String :=
  [".git", ".vscode", ".idea", "__pycache__", "env", "venv", "node_modules"]

/-- `part.startswith(".")` on a path segment. -/
def startsWithDot (s : String) : Bool :=
  match s.toList with
  | [] => false
  | c :: _ => c = '.'

/-- The `for part in relative_parts` loop of `resolve_path` (step 3): the
first segment in a blocked set raises `SecurityError` ("restricted"), the
first remaining dot-initial segment raises `SecurityError` ("protected"). -/
def checkParts : List String → Except String Unit
  | [] => Except.ok ()
  | part :: rest =>
      if part ∈ BLOCKED_FILES ∨ part ∈ BLOCKED_DIRS then
        Except.error s!"Access denied. '{part}' is restricted."
      else if startsWithDot part then
        Except.error s!"Access denied. Hidden item '{part}' is protected."
      else checkParts rest

/-- `resolve_path` of `secure_fs.py`.  `Except.error` is the `SecurityError`
channel.  Step 2 is the Python test
`PROJECT_ROOT not in target_path.parents and target_path != PROJECT_ROOT`
(membership in `parents` is being a proper prefix of the canonical segment
list); step 3 walks `target_path.relative_to(PROJECT_ROOT).parts`, which is
the canonical list with the root prefix dropped. -/
def resolve_path (root : List String) (path : String) : Except String (List String) :=
  let target_path := canonicalize root (parsePath path)
  if ¬ (root.isPrefixOf target_path ∧ root ≠ target_path) ∧ target_path ≠ root then
    Except.error s!"Access denied. Path '{path}' is outside the project workspace."
  else
    let relative_parts := target_path.drop root.length
    match checkParts relative_parts with
    | Except.error e => Except.error e
    | Except.ok _ => Except.ok target_path

/-! ## src/utils/context.py -/

/-- One tool-call request inside a model message (`tool.id`,
`tool.function.name`, `tool.function.arguments`; the arguments are the raw
serialized payload, parsed only by the orchestrator). -/
structure ToolCall where
  id : String
  name : String
  arguments : String
deriving DecidableEq

/-- The inference service's response message (`response.choices[0].message`):
a possibly empty batch of tool calls and a textual content.  `if
message.tool_calls:` in Python is the test for a nonempty batch. -/
structure ModelMsg where
  tool_calls : List ToolCall
  content : String
deriving DecidableEq

/-- A plain dict message `{"role": ..., "content": ..., "tool_call_id"?: ...}`
as built by `ContextManager.add_message`. -/
structure DictMsg where
  role : String
  content : String
  tool_call_id : Option String
deriving DecidableEq

/-- An entry of `ContextManager.messages`: either a dict message or the raw
model message object appended by `add_tool_calls`. -/
inductive Msg where
  | dict (m : DictMsg)
  | obj (message : ModelMsg)
deriving DecidableEq

/-- `str()` rendering of a raw model message object, used only for token
estimation of non-dict entries.  The Python `str(msg)` is the library
object's repr; the estimator contract (deterministic, monotone in length)
holds for any fixed rendering, modelled here as the message content. -/
def ModelMsg.str (m : ModelMsg) : String := m.content

/-- `msg.get("content", "") if isinstance(msg, dict) else str(msg)` in
`get_messages`. -/
def Msg.contentStr : Msg → String
  | Msg.dict m => m.content
  | Msg.obj message => message.str

/-- `ContextManager` state: the system prompt dict, the computed
`safe_token_limit`, and the transcript (`self.messages`, whose head is the
system prompt).  `__init__`'s limit arithmetic
`int((model_limit - max_output) * 0.95)` is floating point; the claims
quantify over the limit, so it is carried as a field. -/
structure ContextManager where
  system_prompt : DictMsg
  safe_token_limit : Nat
  messages : List Msg
deriving DecidableEq

/-- `ContextManager._estimate_tokens`: `len(text) // 4`. -/
def estimate_tokens (text : String) : Nat := text.length / 4

/-- `ContextManager.add_message`. -/
def ContextManager.add_message (cm : ContextManager) (role content : String)
    (tool_call_id : Option String) : ContextManager :=
  { cm with messages := cm.messages ++ [Msg.dict ⟨role, content, tool_call_id⟩] }

/-- `ContextManager.add_tool_calls`. -/
def ContextManager.add_tool_calls (cm : ContextManager) (message_object : ModelMsg) :
    ContextManager :=
  { cm with messages := cm.messages ++ [Msg.obj message_object] }

/-- The backwards walk of `get_messages`: the input list is the transcript
tail already reversed (newest first); a message is kept while the running
total stays within the limit, and the walk `break`s at the first message
that would exceed it. -/
def selectNewest (limit : Nat) : Nat → List Msg → List Msg
  | _, [] => []
  | current_tokens, msg :: rest =>
      let msg_tokens := estimate_tokens msg.contentStr
      if current_tokens + msg_tokens ≤ limit then
        msg :: selectNewest limit (current_tokens + msg_tokens) rest
      else []

/-- `ContextManager.get_messages`: system prompt first, then the kept
messages reversed back into chronological order.  A pure function of the
manager: the stored transcript is read, never written. -/
def ContextManager.get_messages (cm : ContextManager) : List Msg :=
  let current_tokens := estimate_tokens cm.system_prompt.content
  let refined_history :=
    selectNewest cm.safe_token_limit current_tokens (cm.messages.drop 1).reverse
  Msg.dict cm.system_prompt :: refined_history.reverse

/-- `ContextManager.clear`. -/
def ContextManager.clear (cm : ContextManager) : ContextManager :=
  { cm with messages := [Msg.dict cm.system_prompt] }

/-- Total estimated token cost of a message list (the spec's "total estimated
cost" of a snapshot). -/
def totalEstimate (msgs : List Msg) : Nat :=
  (msgs.map (fun m => estimate_tokens m.contentStr)).sum

/-! ## src/tool_registry.py -/

/-- An untyped argument mapping (`tool_args: dict`).  Values are carried in
their serialized form; dispatch and the orchestrator never inspect them. -/
abbrev Args := List (String × String)

/-- Outcome of invoking a tool body `func(**tool_args)`: a normal string
return, a `TypeError` (argument-shape mismatch), or any other raised
exception, carrying the exception text. -/
inductive ToolOutcome where
  | ok (result : String)
  | typeError (details : String)
  | raised (details : String)
deriving DecidableEq

/-- A tool implementation as dispatch sees it. -/
def ToolFn := Args → ToolOutcome

/-- A parameter's derived JSON-schema shape (`schema_helper._py_type_to_json`
plus the docstring description): semantic type, optional enumeration,
optional description. -/
structure FieldSchema where
  type : String
  enum : Option (List String)
  description : Option String
deriving DecidableEq

/-- The `function` part of a generated tool schema: name, description,
parameter shapes and required-parameter names (`schema_helper.tool`). -/
structure FuncSchema where
  name : String
  description : String
  properties : List (String × FieldSchema)
  required : List String
deriving DecidableEq

/-- One decorated function found by the discovery walk: its schema name, its
schema, and its callable. -/
structure DiscoveredTool where
  name : String
  schema : FuncSchema
  fn : ToolFn

/-- The module-level `_TOOL_CACHE`. -/
structure ToolCache where
  schemas : List FuncSchema
  map : List (String × ToolFn)
  is_loaded : Bool

/-- `_scan_and_load_tools`.  The filesystem walk, module import and
`inspect.getmembers` extraction are external effects; `disk` is the list of
decorated functions with a named schema that a full scan yields.  The
returned `Bool` records whether the disk was re-walked (`false` on the
early cached return). -/
def scan_and_load_tools (disk : List DiscoveredTool) (force_reload : Bool)
    (cache : ToolCache) : ToolCache × Bool :=
  if cache.is_loaded ∧ ¬ force_reload then (cache, false)
  else
    ({ schemas := disk.map (fun t => t.schema),
       map := disk.map (fun t => (t.name, t.fn)),
       is_loaded := true }, true)

/-- `get_all_tool_schemas`: scan (or hit the cache), return the schema list;
the cache state and scan flag are threaded explicitly. -/
def get_all_tool_schemas (disk : List DiscoveredTool) (refresh : Bool)
    (cache : ToolCache) : List FuncSchema × ToolCache × Bool :=
  let r := scan_and_load_tools disk refresh cache
  (r.1.schemas, r.1, r.2)

/-- `get_tool_map`. -/
def get_tool_map (disk : List DiscoveredTool) (refresh : Bool)
    (cache : ToolCache) : List (String × ToolFn) × ToolCache × Bool :=
  let r := scan_and_load_tools disk refresh cache
  (r.1.map, r.1, r.2)

/-- `execute_tool_call`.  Step 1 (obtaining the cached map via
`get_tool_map()`) is threaded by the caller as `tool_map`; tool names are
unique across the registry (spec §3), so association-list lookup is the
dict lookup.  Every branch returns a plain string: the not-found message,
the tool's own result, or one of the two caught-exception messages. -/
def execute_tool_call (tool_map : List (String × ToolFn)) (tool_name : String)
    (tool_args : Args) : String :=
  match tool_map.lookup tool_name with
  | none => s!"Error: Tool '{tool_name}' not found. Please use one of the provided tools."
  | some func =>
      match func tool_args with
      | ToolOutcome.ok result => result
      | ToolOutcome.typeError e =>
          s!"Error executing '{tool_name}': Invalid arguments provided. Details: {e}"
      | ToolOutcome.raised e => s!"Error inside tool '{tool_name}': {e}"

/-! ## src/main.py -/

/-- `Config.MAX_RETRIES`. -/
def MAX_RETRIES : Nat := 3

/-- `Config.RETRY_DELAY`. -/
def RETRY_DELAY : Nat := 2

/-- The inference service for one turn: attempt index (the `retries`
counter) to outcome.  `Except.error` is a raised `HfHubHTTPError` (or any
exception) in `client.chat_completion`. -/
def LLMOracle := Nat → Except String ModelMsg

/-- The `while retries <= Config.MAX_RETRIES` loop of `_call_llm_with_retry`,
unrolled on `remaining = MAX_RETRIES - retries` (so the `retries >
MAX_RETRIES` re-raise is the `remaining = 0` case).  Alongside the result it
returns the list of `time.sleep(RETRY_DELAY * retries)` durations performed
between attempts, in order. -/
def attemptChain (oracle : LLMOracle) : Nat → Nat → Except String ModelMsg × List Nat
  | retries, remaining =>
      match oracle retries, remaining with
      | Except.ok response, _ => (Except.ok response, [])
      | Except.error e, 0 => (Except.error e, [])
      | Except.error _, rem + 1 =>
          let next := attemptChain oracle (retries + 1) rem
          (next.1, RETRY_DELAY * (retries + 1) :: next.2)

/-- `Agent._call_llm_with_retry`: start at `retries = 0` with
`MAX_RETRIES` further attempts allowed. -/
def call_llm_with_retry (oracle : LLMOracle) : Except String ModelMsg × List Nat :=
  attemptChain oracle 0 MAX_RETRIES

/-- The `AgentEvent` dataclass: `type` is one of `"tool_call"`,
`"tool_result"`, `"answer"`, `"error"` (`"info"` is declared but unused). -/
structure AgentEvent where
  type : String
  content : String
  tool_name : Option String
  tool_id : Option String
  tool_args : Option Args
deriving DecidableEq

/-- `json.loads` over an argument payload: `none` is a raised
`json.JSONDecodeError`.  The JSON parser is external library code, carried
as a parameter. -/
def JsonLoads := String → Option Args

/-- The `for tool in message.tool_calls` loop of `Agent.chat`: per request,
parse the arguments (empty dict on parse failure), emit the `tool_call`
event, dispatch, emit the `tool_result` event, append the `"tool"` message
carrying the request's correlation id; then the next request. -/
def processToolCalls (tool_map : List (String × ToolFn)) (json_loads : JsonLoads) :
    List ToolCall → ContextManager → List AgentEvent × ContextManager
  | [], memory => ([], memory)
  | tool :: rest, memory =>
      let args := (json_loads tool.arguments).getD []
      let result := execute_tool_call tool_map tool.name args
      let memory1 := memory.add_message "tool" result (some tool.id)
      let next := processToolCalls tool_map json_loads rest memory1
      (⟨"tool_call", "Executing tool...", some tool.name, some tool.id, some args⟩ ::
       ⟨"tool_result", result, some tool.name, some tool.id, none⟩ :: next.1, next.2)

/-- The `while True` loop of `Agent.chat`.  `script` gives, per loop
iteration, the inference service's behavior for that turn's retried call;
the loop ends at a fatal retry exhaustion or a final answer (an empty
`script` models a caller that stops consuming events mid-conversation). -/
def chatLoop (tool_map : List (String × ToolFn)) (json_loads : JsonLoads) :
    List LLMOracle → ContextManager → List AgentEvent × ContextManager
  | [], memory => ([], memory)
  | oracle :: restTurns, memory =>
      match (call_llm_with_retry oracle).1 with
      | Except.error e =>
          ([⟨"error", "Critical API Failure: " ++ e, none, none, none⟩], memory)
      | Except.ok message =>
          if message.tool_calls = [] then
            let memory1 := memory.add_message "assistant" message.content none
            ([⟨"answer", message.content, none, none, none⟩], memory1)
          else
            let memory1 := memory.add_tool_calls message
            let batch := processToolCalls tool_map json_loads message.tool_calls memory1
            let rest := chatLoop tool_map json_loads restTurns batch.2
            (batch.1 ++ rest.1, rest.2)

/-- `Agent.chat`: append the user message, then run the loop. -/
def chat (tool_map : List (String × ToolFn)) (json_loads : JsonLoads)
    (script : List LLMOracle) (memory : ContextManager) (user_input : String) :
    List AgentEvent × ContextManager :=
  chatLoop tool_map json_loads script (memory.add_message "user" user_input none)

/-! ## src/tools/read.py -/

/-- `DEFAULT_READ_LIMIT` of `read.py`. -/
def DEFAULT_READ_LIMIT : Nat := 2000

/-- `MAX_LINE_LENGTH` of `read.py`. -/
def MAX_LINE_LENGTH : Nat := 2000

/-- `MAX_BYTES` of `read.py`. -/
def MAX_BYTES : Nat := 50 * 1024

/-- The result dict of `read_file`. -/
structure ReadResult where
  status : String
  output : String
  raw_content : String
  file_path : String
  total_lines : Nat
  read_lines : Nat
  is_truncated : Bool
  error : Option String
deriving DecidableEq

/-- `line.rstrip('\n')`. -/
def rstripNL (s : String) : String :=
  String.mk (s.data.reverse.dropWhile (fun c => c = '\n')).reverse

/-- `"\n".join(lines)`. -/
def joinLines : List String → String
  | [] => ""
  | [s] => s
  | s :: rest => s ++ "\n" ++ joinLines rest

/-- `f"{line_num:05d}"`: decimal digits zero-padded to width 5. -/
def pad5 (n : Nat) : String :=
  let s := toString n
  String.mk (List.replicate (5 - s.length) '0') ++ s

/-- The `for i, line in enumerate(target_lines)` loop of `read_file`:
returns `(formatted_lines, raw_lines, is_truncated)`.  Each line is
newline-stripped, truncated at `MAX_LINE_LENGTH`, and the loop `break`s
(setting `is_truncated`) when the running byte count would pass
`MAX_BYTES`. -/
def formatLoop (start_idx : Nat) : Nat → Nat → List String → List String × List String × Bool
  | _, _, [] => ([], [], false)
  | i, bytes_count, line :: rest =>
      let clean0 := rstripNL line
      let clean_line :=
        if MAX_LINE_LENGTH < clean0.length then
          String.mk (clean0.data.take MAX_LINE_LENGTH) ++ "...[line truncated]"
        else clean0
      let line_cost := clean_line.length + 1
      if MAX_BYTES < bytes_count + line_cost then ([], [], true)
      else
        let line_num := start_idx + i + 1
        let next := formatLoop start_idx (i + 1) (bytes_count + line_cost) rest
        ((pad5 line_num ++ "| " ++ clean_line) :: next.1, clean_line :: next.2.1, next.2.2)

/-- Step 4 of `read_file` (`src/tools/read.py` lines 100-153): slice
`all_lines[max(0, offset) : max(0, offset) + limit]`, format, and fill the
result dict.  Steps 1-3 (sandbox resolution, existence, binary detection)
are filesystem effects that return early with a failed result; the claims
about this stage presuppose an existing readable text file, whose
`readlines()` output is `all_lines`. -/
def read_file (file_path : String) (all_lines : List String) (offset : Int)
    (limit : Nat) : ReadResult :=
  let total_lines := all_lines.length
  let start_idx := (max 0 offset).toNat
  let end_idx := min total_lines (start_idx + limit)
  let target_lines := (all_lines.take end_idx).drop start_idx
  let fmt := formatLoop start_idx 0 0 target_lines
  let read_lines := fmt.1.length
  let llm_output0 := s!"<file path='{file_path}'>\n" ++ joinLines fmt.1 ++ "\n</file>"
  let llm_output :=
    if fmt.2.2 then
      llm_output0 ++ s!"\n(Truncated at {MAX_BYTES} bytes. Use offset={start_idx + read_lines} to read more)"
    else if end_idx < total_lines then
      llm_output0 ++ s!"\n(More content available. Use offset={end_idx} to read next chunk)"
    else llm_output0
  { status := "success", output := llm_output, raw_content := joinLines fmt.2.1,
    file_path := file_path, total_lines := total_lines, read_lines := read_lines,
    is_truncated := fmt.2.2, error := none }

/-! ## Claims C1 and C2: sandbox path resolution -/

theorem isPrefixOf_self (l : List String) : l.isPrefixOf l = true :=
  List.isPrefixOf_iff_prefix.mpr (List.prefix_refl l)

theorem isPrefixOf_append (l t : List String) : l.isPrefixOf (l ++ t) = true :=
  List.isPrefixOf_iff_prefix.mpr (List.prefix_append l t)

theorem normStep_plain (acc : List String) (seg : String) (h1 : seg ≠ ".") (h2 : seg ≠ "..") :
    normStep acc seg = acc ++ [seg] := by
  unfold normStep; rw [if_neg h1, if_neg h2]

theorem foldl_normStep_append :
    ∀ (l acc : List String), (∀ seg ∈ l, seg ≠ "." ∧ seg ≠ "..") →
      List.foldl normStep acc l = acc ++ l := by
  intro l
  induction l with
  | nil => intro acc _; simp
  | cons s rest ih =>
      intro acc h
      have hs := h s (List.mem_cons_self s rest)
      rw [List.foldl_cons, normStep_plain acc s hs.1 hs.2,
        ih (acc ++ [s]) (fun q hq => h q (List.mem_cons_of_mem s hq))]
      simp

theorem canonicalize_relative (root l : List String) (h : ∀ seg ∈ l, seg ≠ "." ∧ seg ≠ "..") :
    canonicalize root ⟨false, l⟩ = root ++ l := by
  show List.foldl normStep (if (false : Bool) then [] else root) l = root ++ l
  rw [if_neg (by decide)]
  exact foldl_normStep_append l root h

theorem resolve_path_eq (root : List String) (path : String) :
    resolve_path root path =
      if root.isPrefixOf (canonicalize root (parsePath path)) = true then
        match checkParts ((canonicalize root (parsePath path)).drop root.length) with
        | Except.error e => Except.error e
        | Except.ok _ => Except.ok (canonicalize root (parsePath path))
      else Except.error s!"Access denied. Path '{path}' is outside the project workspace." := by
  unfold resolve_path
  by_cases hp : root.isPrefixOf (canonicalize root (parsePath path)) = true
  · rw [if_pos hp]
    by_cases he : canonicalize root (parsePath path) = root
    · rw [if_neg (by simp [he])]
    · rw [if_neg (by simp [hp, he, Ne.symm he])]
  · have hne : canonicalize root (parsePath path) ≠ root := by
      intro h
      exact hp (by rw [h]; exact isPrefixOf_self root)
    rw [if_pos ⟨fun hand => hp hand.1, hne⟩, if_neg hp]

theorem checkParts_error_of_bad :
    ∀ l : List String,
      (∃ part ∈ l, part ∈ BLOCKED_FILES ∨ part ∈ BLOCKED_DIRS ∨ startsWithDot part = true) →
      ∃ e, checkParts l = Except.error e := by
  intro l
  induction l with
  | nil => rintro ⟨part, hmem, _⟩; exact absurd hmem (List.not_mem_nil part)
  | cons part rest ih =>
      rintro ⟨q, hq, hbad⟩
      by_cases h1 : part ∈ BLOCKED_FILES ∨ part ∈ BLOCKED_DIRS
      · exact ⟨_, by unfold checkParts; rw [if_pos h1]⟩
      · by_cases h2 : startsWithDot part = true
        · exact ⟨_, by unfold checkParts; rw [if_neg h1, if_pos h2]⟩
        · rcases List.mem_cons.mp hq with rfl | hq'
          · rcases hbad with hb | hb | hb
            · exact absurd (Or.inl hb) h1
            · exact absurd (Or.inr hb) h1
            · exact absurd hb h2
          · obtain ⟨e, he⟩ := ih ⟨q, hq', hbad⟩
            exact ⟨e, by unfold checkParts; rw [if_neg h1, if_neg h2]; exact he⟩

theorem checkParts_ok_of_good :
    ∀ l : List String,
      (∀ part ∈ l, ¬ (part ∈ BLOCKED_FILES ∨ part ∈ BLOCKED_DIRS) ∧ startsWithDot part = false) →
      checkParts l = Except.ok () := by
  intro l
  induction l with
  | nil => intro _; rfl
  | cons part rest ih =>
      intro h
      have hp := h part (List.mem_cons_self part rest)
      have hr := ih fun q hq => h q (List.mem_cons_of_mem part hq)
      unfold checkParts
      rw [if_neg hp.1, if_neg (by simp [hp.2]), hr]

/-- C1 -/
theorem c1_resolve_path_rejects (root : List String) (path : String) :
    (root.isPrefixOf (canonicalize root (parsePath path)) = false →
      ∃ e, resolve_path root path = Except.error e) ∧
    ((∃ part ∈ (canonicalize root (parsePath path)).drop root.length,
        part ∈ BLOCKED_FILES ∨ part ∈ BLOCKED_DIRS ∨ startsWithDot part = true) →
      ∃ e, resolve_path root path = Except.error e) ∧
    (∃ e, resolve_path root ".env" = Except.error e) ∧
    (∃ e, resolve_path root "some/.git/config" = Except.error e) ∧
    (∃ e, resolve_path root ".hidden/x" = Except.error e) := by
  have hblocked : ∀ (segs : List String) (p : String),
      canonicalize root (parsePath p) = root ++ segs →
      (∃ e, checkParts segs = Except.error e) →
      ∃ e, resolve_path root p = Except.error e := by
    rintro segs p hc ⟨e, he⟩
    rw [resolve_path_eq, hc, if_pos (isPrefixOf_append root segs), List.drop_left, he]
    exact ⟨e, rfl⟩
  refine ⟨?_, ?_, ?_, ?_, ?_⟩
  · intro h
    rw [resolve_path_eq, if_neg (by simp [h])]
    exact ⟨_, rfl⟩
  · intro h
    by_cases hp : root.isPrefixOf (canonicalize root (parsePath path)) = true
    · obtain ⟨e, he⟩ := checkParts_error_of_bad _ h
      rw [resolve_path_eq, if_pos hp, he]
      exact ⟨e, rfl⟩
    · rw [resolve_path_eq, if_neg hp]
      exact ⟨_, rfl⟩
  · refine hblocked [".env"] ".env" ?_ ⟨_, by rfl⟩
    rw [show parsePath ".env" = ⟨false, [".env"]⟩ from rfl]
    exact canonicalize_relative root [".env"] (by decide)
  · refine hblocked ["some", ".git", "config"] "some/.git/config" ?_ ⟨_, by rfl⟩
    rw [show parsePath "some/.git/config" = ⟨false, ["some", ".git", "config"]⟩ from rfl]
    exact canonicalize_relative root ["some", ".git", "config"] (by decide)
  · refine hblocked [".hidden", "x"] ".hidden/x" ?_ ⟨_, by rfl⟩
    rw [show parsePath ".hidden/x" = ⟨false, [".hidden", "x"]⟩ from rfl]
    exact canonicalize_relative root [".hidden", "x"] (by decide)

theorem c1_witness :
    (∃ e, resolve_path ["home", "user"] "../../etc/passwd" = Except.error e) ∧
    (∃ e, resolve_path ["home", "user"] "src/.git/config" = Except.error e) :=
  ⟨(c1_resolve_path_rejects ["home", "user"] "../../etc/passwd").1 (by decide),
   (c1_resolve_path_rejects ["home", "user"] "src/.git/config").2.1 (by decide)⟩

/-- C2 -/
theorem c2_resolve_path_allows (root : List String) (path : String)
    (hroot : root.isPrefixOf (canonicalize root (parsePath path)) = true)
    (hparts : ∀ part ∈ (canonicalize root (parsePath path)).drop root.length,
      ¬ (part ∈ BLOCKED_FILES ∨ part ∈ BLOCKED_DIRS) ∧ startsWithDot part = false) :
    (resolve_path root path = Except.ok (canonicalize root (parsePath path)) ∧
      root <+: canonicalize root (parsePath path)) ∧
    (∀ r : List String, resolve_path r "" = Except.ok r) := by
  refine ⟨⟨?_, List.isPrefixOf_iff_prefix.mp hroot⟩, ?_⟩
  · rw [resolve_path_eq, if_pos hroot, checkParts_ok_of_good _ hparts]
  · intro r
    have hc : canonicalize r (parsePath "") = r := rfl
    rw [resolve_path_eq, hc, if_pos (isPrefixOf_self r), List.drop_length]
    rfl

theorem c2_witness :
    resolve_path ["home"] "docs/readme.md" = Except.ok ["home", "docs", "readme.md"] :=
  ((c2_resolve_path_allows ["home"] "docs/readme.md" (by decide) (by decide)).1.1).trans rfl


/-! ## Claim C3: dispatch failure isolation -/

/-- Dispatch is a total function into `String` (it never propagates an
exception): its three non-success shapes. -/
theorem c3_dispatch_never_raises (tool_map : List (String × ToolFn)) (tool_name : String)
    (tool_args : Args) :
    (tool_map.lookup tool_name = none →
      ∃ pre post, execute_tool_call tool_map tool_name tool_args = pre ++ "not found" ++ post) ∧
    (∀ func : ToolFn, tool_map.lookup tool_name = some func →
      (∀ r, func tool_args = ToolOutcome.ok r →
        execute_tool_call tool_map tool_name tool_args = r) ∧
      (∀ e, func tool_args = ToolOutcome.typeError e →
        execute_tool_call tool_map tool_name tool_args =
          s!"Error executing '{tool_name}': Invalid arguments provided. Details: {e}") ∧
      (∀ e, func tool_args = ToolOutcome.raised e →
        execute_tool_call tool_map tool_name tool_args =
          s!"Error inside tool '{tool_name}': {e}")) := by
  constructor
  · intro h
    refine ⟨"Error: Tool '" ++ tool_name ++ "' ", ". Please use one of the provided tools.", ?_⟩
    unfold execute_tool_call
    rw [h]
    simp only [String.append_assoc]
    rfl
  · intro func hfunc
    refine ⟨?_, ?_, ?_⟩ <;> intro x hx <;> simp only [execute_tool_call, hfunc, hx]

theorem c3_witness :
    (∃ pre post, execute_tool_call [] "nonexistent_tool" [] = pre ++ "not found" ++ post) ∧
    execute_tool_call [("write_file", fun _ => ToolOutcome.typeError "unexpected keyword argument")]
        "write_file" [("badArg", "1")] =
      "Error executing 'write_file': Invalid arguments provided. Details: unexpected keyword argument" ∧
    execute_tool_call [("read_file", fun _ => ToolOutcome.raised "boom")] "read_file" [] =
      "Error inside tool 'read_file': boom" := by
  refine ⟨(c3_dispatch_never_raises [] "nonexistent_tool" []).1 rfl, ?_, ?_⟩
  · exact (((c3_dispatch_never_raises
      [("write_file", fun _ => ToolOutcome.typeError "unexpected keyword argument")]
      "write_file" [("badArg", "1")]).2 _ rfl).2.1 _ rfl).trans rfl
  · exact (((c3_dispatch_never_raises
      [("read_file", fun _ => ToolOutcome.raised "boom")]
      "read_file" []).2 _ rfl).2.2 _ rfl).trans rfl

/-! ## Claims C4 and C7: the context-window snapshot -/

theorem selectNewest_total_le (limit : Nat) :
    ∀ (l : List Msg) (current : Nat), current ≤ limit →
      current + ((selectNewest limit current l).map (fun m => estimate_tokens m.contentStr)).sum ≤
        limit := by
  intro l
  induction l with
  | nil => intro current h; simpa using h
  | cons msg rest ih =>
      intro current h
      unfold selectNewest
      by_cases hc : current + estimate_tokens msg.contentStr ≤ limit
      · rw [if_pos hc]
        have := ih (current + estimate_tokens msg.contentStr) hc
        simp only [List.map_cons, List.sum_cons]
        omega
      · rw [if_neg hc]
        simpa using h

/-- C4 -/
theorem c4_snapshot_budget (cm : ContextManager) :
    cm.get_messages.head? = some (Msg.dict cm.system_prompt) ∧
    (estimate_tokens cm.system_prompt.content ≤ cm.safe_token_limit →
      totalEstimate cm.get_messages ≤ cm.safe_token_limit) := by
  refine ⟨rfl, ?_⟩
  intro h
  have hmain := selectNewest_total_le cm.safe_token_limit
    ((cm.messages.drop 1).reverse) (estimate_tokens cm.system_prompt.content) h
  unfold ContextManager.get_messages totalEstimate
  simp only [List.map_cons, List.sum_cons, List.map_reverse, List.sum_reverse]
  simpa [Msg.contentStr] using hmain

theorem c4_witness :
    (ContextManager.get_messages
        ⟨⟨"system", "sys", none⟩, 100,
          [Msg.dict ⟨"system", "sys", none⟩, Msg.dict ⟨"user", "hello there", none⟩]⟩).head? =
      some (Msg.dict ⟨"system", "sys", none⟩) ∧
    totalEstimate (ContextManager.get_messages
        ⟨⟨"system", "sys", none⟩, 100,
          [Msg.dict ⟨"system", "sys", none⟩, Msg.dict ⟨"user", "hello there", none⟩]⟩) ≤ 100 :=
  ⟨(c4_snapshot_budget _).1, (c4_snapshot_budget _).2 (by decide)⟩

theorem selectNewest_take (limit : Nat) :
    ∀ (l : List Msg) (current : Nat), ∃ n, selectNewest limit current l = l.take n := by
  intro l
  induction l with
  | nil => intro current; exact ⟨0, rfl⟩
  | cons msg rest ih =>
      intro current
      unfold selectNewest
      by_cases hc : current + estimate_tokens msg.contentStr ≤ limit
      · obtain ⟨n, hn⟩ := ih (current + estimate_tokens msg.contentStr)
        exact ⟨n + 1, by rw [if_pos hc, hn]; rfl⟩
      · exact ⟨0, by rw [if_neg hc]; rfl⟩

/-- C7 -/
theorem c7_snapshot_chronological_suffix (cm : ContextManager) :
    ∃ k, cm.get_messages = Msg.dict cm.system_prompt :: (cm.messages.drop 1).drop k := by
  have hsuffix :
      (selectNewest cm.safe_token_limit (estimate_tokens cm.system_prompt.content)
        (cm.messages.drop 1).reverse).reverse <:+ cm.messages.drop 1 := by
    obtain ⟨n, hn⟩ := selectNewest_take cm.safe_token_limit
      ((cm.messages.drop 1).reverse) (estimate_tokens cm.system_prompt.content)
    rw [hn]
    refine List.reverse_prefix.mp ?_
    simpa using List.take_prefix n (cm.messages.drop 1).reverse
  have hdrop := List.suffix_iff_eq_drop.mp hsuffix
  exact ⟨_, by rw [show cm.get_messages = Msg.dict cm.system_prompt ::
    (selectNewest cm.safe_token_limit (estimate_tokens cm.system_prompt.content)
      (cm.messages.drop 1).reverse).reverse from rfl, hdrop]⟩

/-! ## Claim C5: retry exhaustion is the single fatal event -/

theorem c5_fatal_on_retry_exhaustion (tool_map : List (String × ToolFn))
    (json_loads : JsonLoads) (oracle : LLMOracle) (restTurns : List LLMOracle)
    (memory : ContextManager) (user_input : String)
    (hfail : ∀ i, i ≤ MAX_RETRIES → (oracle i).isOk = false) :
    (∃ e, (chat tool_map json_loads (oracle :: restTurns) memory user_input).1 =
      [⟨"error", "Critical API Failure: " ++ e, none, none, none⟩]) ∧
    (call_llm_with_retry oracle).2 = [RETRY_DELAY * 1, RETRY_DELAY * 2, RETRY_DELAY * 3] ∧
    List.Chain' (· < ·) (call_llm_with_retry oracle).2 := by
  have herr : ∀ i, i ≤ MAX_RETRIES → ∃ e, oracle i = Except.error e := by
    intro i hi
    cases h : oracle i with
    | ok r => have hh := hfail i hi; rw [h] at hh; simp [Except.isOk, Except.toBool] at hh
    | error e => exact ⟨e, rfl⟩
  obtain ⟨e0, h0⟩ := herr 0 (by decide)
  obtain ⟨e1, h1⟩ := herr 1 (by decide)
  obtain ⟨e2, h2⟩ := herr 2 (by decide)
  obtain ⟨e3, h3⟩ := herr 3 (by decide)
  have hchain : call_llm_with_retry oracle =
      (Except.error e3, [RETRY_DELAY * 1, RETRY_DELAY * 2, RETRY_DELAY * 3]) := by
    unfold call_llm_with_retry MAX_RETRIES
    unfold attemptChain
    rw [h0]
    unfold attemptChain
    rw [h1]
    unfold attemptChain
    rw [h2]
    unfold attemptChain
    rw [h3]
  have hd : (call_llm_with_retry oracle).2 =
      [RETRY_DELAY * 1, RETRY_DELAY * 2, RETRY_DELAY * 3] := by rw [hchain]
  refine ⟨⟨e3, ?_⟩, hd, by rw [hd]; norm_num [List.chain'_cons, List.chain'_singleton, RETRY_DELAY]⟩
  unfold chat chatLoop
  rw [hchain]

theorem c5_witness :
    (∃ e, (chat [] (fun _ => none) [fun _ => Except.error "boom"]
        ⟨⟨"system", "sys", none⟩, 100, [Msg.dict ⟨"system", "sys", none⟩]⟩ "hi").1 =
      [⟨"error", "Critical API Failure: " ++ e, none, none, none⟩]) ∧
    (call_llm_with_retry (fun _ => Except.error "boom")).2 =
      [RETRY_DELAY * 1, RETRY_DELAY * 2, RETRY_DELAY * 3] ∧
    List.Chain' (· < ·) (call_llm_with_retry (fun _ => Except.error "boom")).2 :=
  c5_fatal_on_retry_exhaustion [] (fun _ => none) (fun _ => Except.error "boom") []
    ⟨⟨"system", "sys", none⟩, 100, [Msg.dict ⟨"system", "sys", none⟩]⟩ "hi"
    (fun _ _ => rfl)

/-! ## Claims C6 and C8: sequential in-order tool batches -/

theorem processToolCalls_events (tool_map : List (String × ToolFn)) (json_loads : JsonLoads) :
    ∀ (batch : List ToolCall) (memory : ContextManager),
      (processToolCalls tool_map json_loads batch memory).1 =
        batch.flatMap (fun tool =>
          [⟨"tool_call", "Executing tool...", some tool.name, some tool.id,
            some ((json_loads tool.arguments).getD [])⟩,
           ⟨"tool_result", execute_tool_call tool_map tool.name ((json_loads tool.arguments).getD []),
            some tool.name, some tool.id, none⟩]) := by
  intro batch
  induction batch with
  | nil => intro memory; rfl
  | cons tool rest ih =>
      intro memory
      simp only [processToolCalls, ih, List.flatMap_cons]
      rfl

theorem processToolCalls_messages (tool_map : List (String × ToolFn)) (json_loads : JsonLoads) :
    ∀ (batch : List ToolCall) (memory : ContextManager),
      (processToolCalls tool_map json_loads batch memory).2.messages =
        memory.messages ++ batch.map (fun tool =>
          Msg.dict ⟨"tool", execute_tool_call tool_map tool.name ((json_loads tool.arguments).getD []),
            some tool.id⟩) := by
  intro batch
  induction batch with
  | nil => intro memory; simp [processToolCalls]
  | cons tool rest ih =>
      intro memory
      simp only [processToolCalls, ih, ContextManager.add_message, List.map_cons]
      simp

/-- C6 -/
theorem c6_batch_sequential (tool_map : List (String × ToolFn)) (json_loads : JsonLoads)
    (oracle : LLMOracle) (restTurns : List LLMOracle) (memory : ContextManager)
    (message : ModelMsg)
    (hok : (call_llm_with_retry oracle).1 = Except.ok message)
    (hbatch : message.tool_calls ≠ []) :
    (chatLoop tool_map json_loads (oracle :: restTurns) memory).1 =
      (message.tool_calls.flatMap (fun tool =>
        [⟨"tool_call", "Executing tool...", some tool.name, some tool.id,
          some ((json_loads tool.arguments).getD [])⟩,
         ⟨"tool_result", execute_tool_call tool_map tool.name ((json_loads tool.arguments).getD []),
          some tool.name, some tool.id, none⟩])) ++
      (chatLoop tool_map json_loads restTurns
        (processToolCalls tool_map json_loads message.tool_calls
          (memory.add_tool_calls message)).2).1 ∧
    (processToolCalls tool_map json_loads message.tool_calls
        (memory.add_tool_calls message)).2.messages =
      (memory.add_tool_calls message).messages ++ message.tool_calls.map (fun tool =>
        Msg.dict ⟨"tool", execute_tool_call tool_map tool.name ((json_loads tool.arguments).getD []),
          some tool.id⟩) := by
  constructor
  · simp only [chatLoop, hok]
    rw [if_neg hbatch, processToolCalls_events]
  · exact processToolCalls_messages tool_map json_loads message.tool_calls
      (memory.add_tool_calls message)

theorem c6_witness :
    (chatLoop [] (fun _ => none)
      [fun _ => Except.ok ⟨[⟨"id1", "list_files", "bad"⟩, ⟨"id2", "read_file", "worse"⟩], ""⟩]
      ⟨⟨"system", "sys", none⟩, 100, [Msg.dict ⟨"system", "sys", none⟩]⟩).1 =
      [⟨"tool_call", "Executing tool...", some "list_files", some "id1", some []⟩,
       ⟨"tool_result", "Error: Tool 'list_files' not found. Please use one of the provided tools.",
        some "list_files", some "id1", none⟩,
       ⟨"tool_call", "Executing tool...", some "read_file", some "id2", some []⟩,
       ⟨"tool_result", "Error: Tool 'read_file' not found. Please use one of the provided tools.",
        some "read_file", some "id2", none⟩] :=
  ((c6_batch_sequential [] (fun _ => none)
    (fun _ => Except.ok ⟨[⟨"id1", "list_files", "bad"⟩, ⟨"id2", "read_file", "worse"⟩], ""⟩) []
    ⟨⟨"system", "sys", none⟩, 100, [Msg.dict ⟨"system", "sys", none⟩]⟩
    ⟨[⟨"id1", "list_files", "bad"⟩, ⟨"id2", "read_file", "worse"⟩], ""⟩
    rfl (by decide)).1).trans rfl

/-- C8 -/
theorem c8_unparsable_args_empty_dict (tool_map : List (String × ToolFn))
    (json_loads : JsonLoads) (tool : ToolCall) (rest : List ToolCall)
    (memory : ContextManager)
    (hbad : json_loads tool.arguments = none) :
    (processToolCalls tool_map json_loads (tool :: rest) memory).1 =
      ⟨"tool_call", "Executing tool...", some tool.name, some tool.id, some []⟩ ::
      ⟨"tool_result", execute_tool_call tool_map tool.name [], some tool.name, some tool.id, none⟩ ::
      (processToolCalls tool_map json_loads rest
        (memory.add_message "tool" (execute_tool_call tool_map tool.name [])
          (some tool.id))).1 := by
  simp only [processToolCalls, hbad, Option.getD_none]

theorem c8_witness :
    (processToolCalls [] (fun _ => none) [⟨"id9", "grep_tool", "not json"⟩]
      ⟨⟨"system", "sys", none⟩, 100, [Msg.dict ⟨"system", "sys", none⟩]⟩).1 =
      [⟨"tool_call", "Executing tool...", some "grep_tool", some "id9", some []⟩,
       ⟨"tool_result", "Error: Tool 'grep_tool' not found. Please use one of the provided tools.",
        some "grep_tool", some "id9", none⟩] :=
  (c8_unparsable_args_empty_dict [] (fun _ => none) ⟨"id9", "grep_tool", "not json"⟩ []
    ⟨⟨"system", "sys", none⟩, 100, [Msg.dict ⟨"system", "sys", none⟩]⟩ rfl).trans rfl

/-! ## Claim C9: discovery idempotence -/

/-- C9 -/
theorem c9_discover_idempotent (disk : List DiscoveredTool) (cache0 : ToolCache) :
    (get_all_tool_schemas disk false
        (get_all_tool_schemas disk false cache0).2.1).2.2 = false ∧
    (get_all_tool_schemas disk false (get_all_tool_schemas disk false cache0).2.1).1 =
      (get_all_tool_schemas disk false cache0).1 ∧
    (get_all_tool_schemas disk false (get_all_tool_schemas disk false cache0).2.1).2.1 =
      (get_all_tool_schemas disk false cache0).2.1 ∧
    (get_all_tool_schemas disk false (get_all_tool_schemas disk false cache0).2.1).1.map
        FuncSchema.name =
      (get_all_tool_schemas disk false cache0).1.map FuncSchema.name ∧
    (get_all_tool_schemas disk false (get_all_tool_schemas disk false cache0).2.1).1.map
        FuncSchema.properties =
      (get_all_tool_schemas disk false cache0).1.map FuncSchema.properties ∧
    (get_all_tool_schemas disk false (get_all_tool_schemas disk false cache0).2.1).1.map
        FuncSchema.required =
      (get_all_tool_schemas disk false cache0).1.map FuncSchema.required := by
  by_cases h : cache0.is_loaded <;>
    simp [get_all_tool_schemas, scan_and_load_tools, h]

/-! ## Claim C10: read offsets -/

/-- C10 -/
theorem c10_read_file_offsets (file_path : String) (all_lines : List String)
    (offset : Int) (limit : Nat) :
    (offset < 0 → read_file file_path all_lines offset limit =
      read_file file_path all_lines 0 limit) ∧
    ((all_lines.length : Int) ≤ offset →
      (read_file file_path all_lines offset limit).status = "success" ∧
      (read_file file_path all_lines offset limit).read_lines = 0 ∧
      (read_file file_path all_lines offset limit).raw_content = "" ∧
      (read_file file_path all_lines offset limit).error = none) := by
  constructor
  · intro h
    have hmax : max 0 offset = 0 := max_eq_left h.le
    unfold read_file
    rw [hmax, max_self]
  · intro h
    have h0 : (0 : Int) ≤ offset := le_trans (Int.ofNat_nonneg all_lines.length) h
    have hmax : max 0 offset = offset := max_eq_right h0
    have hstart : all_lines.length ≤ (max 0 offset).toNat := by
      rw [hmax]
      omega
    have htarget :
        (all_lines.take (min all_lines.length ((max 0 offset).toNat + limit))).drop
          ((max 0 offset).toNat) = [] := by
      apply List.drop_eq_nil_of_le
      rw [List.length_take]
      omega
    unfold read_file
    dsimp only
    rw [htarget]
    exact ⟨rfl, rfl, rfl, rfl⟩

theorem c10_witness :
    read_file "a.txt" ["one", "two"] (-5) 10 = read_file "a.txt" ["one", "two"] 0 10 ∧
    (read_file "a.txt" ["one", "two"] 7 10).status = "success" ∧
    (read_file "a.txt" ["one", "two"] 7 10).read_lines = 0 ∧
    (read_file "a.txt" ["one", "two"] 7 10).raw_content = "" ∧
    (read_file "a.txt" ["one", "two"] 7 10).error = none :=
  ⟨(c10_read_file_offsets "a.txt" ["one", "two"] (-5) 10).1 (by decide),
   (c10_read_file_offsets "a.txt" ["one", "two"] 7 10).2 (by decide)⟩

end CodeCopilot
